import Mathlib

/-!
Verification of `httpcheck` (src/httpcheck.go), a single-shot HTTP health
check CLI.  The program is embedded shallowly: `main` is modelled as the pure
function `runMain` from the argument list, the process environment (a total
function `String → String`, returning `""` for unset names exactly as Go's
`os.Getenv` does) and the outcome of the single HTTP request (`none` for a
transport error, otherwise a status code together with the result of reading
the body — `none` models an `io.ReadAll` failure) to the process exit code.

The stages mirror the Go source:
  * `parseLoop`      — the flag-parsing `for` loop (lines 91–180); every
                       error path there calls `os.Exit(1)`, modelled by
                       `none`;
  * `resolveFlags`   — the environment resolution steps (lines 187–206);
  * `parseAcceptedCodes` — the accepted-codes CSV parsing (lines 214–227),
                       `none` for the `os.Exit(1)` on a bad element;
  * `bodyGate`       — the body-substring check (lines 260–279), `none`
                       for the `os.Exit(1)` on a body read error;
  * `evalResponse` / `evalResolved` / `runMain` — the verdict logic
                       (lines 282–306) and the surrounding control flow.

Library functions of Go are modelled on `List Char`: `goAtoi` is
`strconv.Atoi` (optional sign, decimal digits; the int64 overflow error is
out of scope since the inputs of interest are HTTP codes and timeouts),
`goTrimSpace` is `strings.TrimSpace`, `splitOnChar ','` is
`strings.Split · ","`, `containsSub` is `strings.Contains`, and `goToUpper`
is `strings.ToUpper` (ASCII letters, which covers the GET/HEAD comparison).
-/

/-- The local variables accumulated by the flag-parsing loop of `main`. -/
structure Flags where
  url : String
  urlEnvName : String
  acceptedCodesStr : String
  acceptedCodesEnvName : String
  verbose : Bool
  insecureSkipVerify : Bool
  help : Bool
  timeoutSeconds : Int
  httpMethod : String
  bodyContains : String
  bodyContainsEnvName : String
deriving Repr, DecidableEq

/-- Initial values of the loop variables (lines 72–82 of the source). -/
def initFlags : Flags :=
  { url := "", urlEnvName := "", acceptedCodesStr := "",
    acceptedCodesEnvName := "", verbose := false,
    insecureSkipVerify := false, help := false, timeoutSeconds := 5,
    httpMethod := "GET", bodyContains := "", bodyContainsEnvName := "" }

/-- The observable part of an `http.Response`: the status code and the
result of reading the body (`none` models a failing `io.ReadAll`). -/
structure HttpResponse where
  statusCode : Int
  bodyResult : Option String
deriving Repr, DecidableEq

/-- Go `unicode.IsSpace`, the whitespace set used by `strings.TrimSpace`. -/
def goIsSpace (c : Char) : Bool :=
  c = ' ' ∨ c = '\t' ∨ c = '\n' ∨ c = '\x0b' ∨ c = '\x0c' ∨ c = '\r' ∨
  c = '\u0085' ∨ c = ' ' ∨ c = Char.ofNat 0x1680 ∨
  (0x2000 ≤ c.toNat ∧ c.toNat ≤ 0x200a) ∨ c = Char.ofNat 0x2028 ∨
  c = Char.ofNat 0x2029 ∨ c = Char.ofNat 0x202f ∨ c = Char.ofNat 0x205f ∨
  c = Char.ofNat 0x3000

/-- Go `strings.TrimSpace` on the character list of a string. -/
def goTrimSpace (l : List Char) : List Char :=
  ((l.dropWhile goIsSpace).reverse.dropWhile goIsSpace).reverse

/-- Value of a non-empty all-digit string, `none` otherwise. -/
def decDigits : List Char → Option Nat
  | [] => none
  | l => go l 0
where
  go : List Char → Nat → Option Nat
    | [], acc => some acc
    | c :: cs, acc =>
        if c.isDigit then go cs (acc * 10 + (c.toNat - 48)) else none

/-- Go `strconv.Atoi`: optional sign followed by decimal digits (the int64
range error is not modelled; every input of interest is small). -/
def goAtoi : List Char → Option Int
  | '+' :: rest => (decDigits rest).map fun n => (n : Int)
  | '-' :: rest => (decDigits rest).map fun n => -(n : Int)
  | l => (decDigits l).map fun n => (n : Int)

/-- Go `strings.Split` with a one-character separator. -/
def splitOnChar (sep : Char) : List Char → List (List Char)
  | [] => [[]]
  | c :: rest =>
      let r := splitOnChar sep rest
      if c = sep then [] :: r
      else
        match r with
        | [] => [[c]]
        | h :: t => (c :: h) :: t

/-- Boolean list-prefix test (needle, haystack). -/
def isPrefixCL : List Char → List Char → Bool
  | [], _ => true
  | _ :: _, [] => false
  | a :: as, b :: bs => a = b && isPrefixCL as bs

/-- Go `strings.Contains hay needle`: some suffix of `hay` starts with
`needle`. -/
def containsSub : List Char → List Char → Bool
  | [], needle => needle.isEmpty
  | c :: t, needle => isPrefixCL needle (c :: t) || containsSub t needle

/-- Go `strings.ToUpper` (ASCII letters). -/
def goToUpper (s : String) : String := ⟨s.data.map Char.toUpper⟩

/-- One element of the accepted-codes CSV:
`strconv.Atoi(strings.TrimSpace(codeStr))` (line 220). -/
def parseCodeElem (e : List Char) : Option Int := goAtoi (goTrimSpace e)

/-- Left-to-right traversal that stops at the first failing element, the
shape of the loop at lines 219–226. -/
def optMapList (f : α → Option β) : List α → Option (List β)
  | [] => some []
  | a :: as =>
      match f a, optMapList f as with
      | some b, some bs => some (b :: bs)
      | _, _ => none

/-- Lines 214–227: when the accepted-codes string is empty the map stays
`nil` (`some none`); otherwise the string is split on commas and every
element is trimmed and parsed, a failure exiting with status 1 (`none`);
the successfully parsed codes form the set `acceptedCodeMap`. -/
def parseAcceptedCodes (s : String) : Option (Option (Finset Int)) :=
  if s = "" then some none
  else
    (optMapList parseCodeElem (splitOnChar ',' s.data)).map
      fun codes => some codes.toFinset

/-- The flag-parsing `for` loop (lines 91–180).  Every flag taking a value
consumes the following token; a missing value, a bad timeout integer, a bad
method or an unknown option calls `os.Exit(1)` (`none`). -/
def parseLoop : List String → Flags → Option Flags
  | [], f => some f
  | arg :: rest, f =>
    if arg = "-u" ∨ arg = "--url" then
      match rest with
      | v :: rest2 => parseLoop rest2 { f with url := v }
      | [] => none
    else if arg = "-U" ∨ arg = "--url-env-name" then
      match rest with
      | v :: rest2 => parseLoop rest2 { f with urlEnvName := v }
      | [] => none
    else if arg = "-c" ∨ arg = "--accepted-codes" then
      match rest with
      | v :: rest2 => parseLoop rest2 { f with acceptedCodesStr := v }
      | [] => none
    else if arg = "-C" ∨ arg = "--accepted-codes-env-name" then
      match rest with
      | v :: rest2 => parseLoop rest2 { f with acceptedCodesEnvName := v }
      | [] => none
    else if arg = "-v" ∨ arg = "--verbose" then
      parseLoop rest { f with verbose := true }
    else if arg = "-k" ∨ arg = "--insecure" then
      parseLoop rest { f with insecureSkipVerify := true }
    else if arg = "-h" ∨ arg = "--help" then
      parseLoop rest { f with help := true }
    else if arg = "-t" ∨ arg = "--timeout" then
      match rest with
      | v :: rest2 =>
          match goAtoi v.data with
          | some t => parseLoop rest2 { f with timeoutSeconds := t }
          | none => none
      | [] => none
    else if arg = "-m" ∨ arg = "--method" then
      match rest with
      | v :: rest2 =>
          if goToUpper v = "GET" ∨ goToUpper v = "HEAD" then
            parseLoop rest2 { f with httpMethod := goToUpper v }
          else none
      | [] => none
    else if arg = "-b" ∨ arg = "--body-contains" then
      match rest with
      | v :: rest2 => parseLoop rest2 { f with bodyContains := v }
      | [] => none
    else if arg = "-B" ∨ arg = "--body-contains-env-name" then
      match rest with
      | v :: rest2 => parseLoop rest2 { f with bodyContainsEnvName := v }
      | [] => none
    else none

/-- Environment resolution, lines 187–206: `-U` overwrites the URL; the
`-C` name is consulted only when both body-substring sources are still
empty; `-B` then overwrites the body-substring. -/
def resolveFlags (f : Flags) (env : String → String) : Flags :=
  let f1 := if f.urlEnvName ≠ "" then { f with url := env f.urlEnvName } else f
  let f2 :=
    if f1.acceptedCodesEnvName ≠ "" ∧ f1.bodyContainsEnvName = "" ∧
        f1.bodyContains = "" then
      { f1 with acceptedCodesStr := env f1.acceptedCodesEnvName }
    else f1
  if f2.bodyContainsEnvName ≠ "" then
    { f2 with bodyContains := env f2.bodyContainsEnvName }
  else f2

/-- Lines 260–279: when a body-substring is configured and the method is
GET, the body is read (`none` = read failure = exit 1) and searched;
otherwise `bodyCheckPassed` keeps its initial value `true`. -/
def bodyGate (f : Flags) (resp : HttpResponse) : Option Bool :=
  if f.bodyContains ≠ "" ∧ f.httpMethod = "GET" then
    match resp.bodyResult with
    | none => none
    | some body => some (containsSub body.data f.bodyContains.data)
  else some true

/-- The verdict block, lines 281–306, including the implicit exit 0 when
`main` falls off the end (unreachable given the outer condition). -/
def evalResponse (f : Flags) (codeSet : Option (Finset Int))
    (resp : HttpResponse) : Nat :=
  match bodyGate f resp with
  | none => 1
  | some passed =>
      if f.bodyContains = "" ∨ passed = true then
        match codeSet with
        | some m => if resp.statusCode ∈ m then 0 else 1
        | none =>
            if f.bodyContains = "" then 0
            else if passed then 0
            else 0
      else 1

/-- Everything after the help check: resolution (lines 187–206), the empty
URL check (line 208), code parsing (lines 214–227), the request (`none` =
transport error = exit 1, lines 252–257) and the verdict. -/
def evalResolved (f : Flags) (env : String → String)
    (out : Option HttpResponse) : Nat :=
  let r := resolveFlags f env
  if r.url = "" then 1
  else
    match parseAcceptedCodes r.acceptedCodesStr with
    | none => 1
    | some codeSet =>
        match out with
        | none => 1
        | some resp => evalResponse r codeSet resp

/-- The whole of `main` as a function to the process exit code: zero
arguments print help and exit 0 (lines 86–89); then the parse loop, the
help check (lines 182–185), and the rest. -/
def runMain (args : List String) (env : String → String)
    (out : Option HttpResponse) : Nat :=
  if args = [] then 0
  else
    match parseLoop args initFlags with
    | none => 1
    | some f => if f.help then 0 else evalResolved f env out

/-- Forget the `verbose` field (it gates printing only). -/
def clearVerbose (f : Flags) : Flags := { f with verbose := false }

/-- An environment with no variables set (`os.Getenv` yields `""`). -/
def envEmpty : String → String := fun _ => ""

/-- An environment with exactly `CV=200` set. -/
def env200 : String → String := fun n => if n = "CV" then "200" else ""

/-- Concrete configuration: `-u X -c 200 -b OK`. -/
def flagsBodyAndCodes : Flags :=
  { initFlags with url := "X", acceptedCodesStr := "200", bodyContains := "OK" }

/-- Concrete configuration: `-u X -c 200`. -/
def flagsCodesOnly : Flags :=
  { initFlags with url := "X", acceptedCodesStr := "200" }

/-- Concrete configuration: `-u X`. -/
def flagsUrlOnly : Flags := { initFlags with url := "X" }

/-- Concrete configuration: `-u X -m HEAD -b OK -c 200`. -/
def flagsHeadBoth : Flags :=
  { initFlags with url := "X", httpMethod := "HEAD", bodyContains := "OK",
                   acceptedCodesStr := "200" }

/-- Concrete configuration: `-u X -C CV -B UNSET`. -/
def flagsEnvIndirect : Flags :=
  { initFlags with url := "X", acceptedCodesEnvName := "CV",
                   bodyContainsEnvName := "UNSET" }

/-- Concrete configuration: `-u X -c 200 -b OK -C CV`. -/
def flagsBodyPlusCodeEnv : Flags :=
  { initFlags with url := "X", acceptedCodesStr := "200",
                   bodyContains := "OK", acceptedCodesEnvName := "CV" }

/- ## Helper lemmas -/

lemma parseAcceptedCodes_empty : parseAcceptedCodes "" = some none := rfl

lemma bodyGate_trivial (f : Flags) (resp : HttpResponse) (hb : f.bodyContains = "") :
    bodyGate f resp = some true := by
  unfold bodyGate
  rw [if_neg]
  intro hcon
  exact hcon.1 hb

lemma evalResolved_no_criteria (f : Flags) (env : String → String) (resp : HttpResponse)
    (hu : (resolveFlags f env).url ≠ "")
    (hc : (resolveFlags f env).acceptedCodesStr = "")
    (hb : (resolveFlags f env).bodyContains = "") :
    evalResolved f env (some resp) = 0 := by
  simp only [evalResolved]
  rw [if_neg hu, hc, parseAcceptedCodes_empty]
  simp only [evalResponse, bodyGate_trivial _ _ hb]
  rw [if_pos (Or.inl hb), if_pos hb]

/- ## C1 -/

/-- Claim C1: for every configuration whose resolved body-substring is non-empty and
whose method is GET, if the substring is absent from the successfully read response
body, the process exits with status 1, regardless of the accepted-codes
configuration and of the received status code (the body check vetoes the
status-code check). -/
theorem claimC1 (f : Flags) (env : String → String) (s : Int) (body : String)
    (hb : (resolveFlags f env).bodyContains ≠ "")
    (hm : (resolveFlags f env).httpMethod = "GET")
    (habs : containsSub body.data (resolveFlags f env).bodyContains.data = false) :
    evalResolved f env (some ⟨s, some body⟩) = 1 := by
  simp only [evalResolved]
  by_cases hu : (resolveFlags f env).url = ""
  · rw [if_pos hu]
  · rw [if_neg hu]
    cases hpc : parseAcceptedCodes (resolveFlags f env).acceptedCodesStr with
    | none => rfl
    | some codeSet =>
        simp only [evalResponse, bodyGate, if_pos (And.intro hb hm), habs]
        rw [if_neg]
        intro hcon
        rcases hcon with hcon | hcon
        · exact hb hcon
        · exact Bool.false_ne_true hcon

/-- Witness for C1: status 200, accepted codes 200, body ERROR, substring OK. -/
theorem claimC1witness :
    evalResolved flagsBodyAndCodes envEmpty (some ⟨200, some "ERROR"⟩) = 1 :=
  claimC1 flagsBodyAndCodes envEmpty 200 "ERROR" (by decide) (by decide) (by decide)

/- ## C2 -/

/-- Claim C2: when an accepted-codes set is configured (the codes string parses to
the set M) and the body gate passes or is absent, the process exits 0 iff the
received status code is in M and exits 1 iff it is not, for every integer status
code the response can carry. -/
theorem claimC2 (f : Flags) (env : String → String) (resp : HttpResponse) (M : Finset Int)
    (hu : (resolveFlags f env).url ≠ "")
    (hc : parseAcceptedCodes (resolveFlags f env).acceptedCodesStr = some (some M))
    (hg : bodyGate (resolveFlags f env) resp = some true) :
    (evalResolved f env (some resp) = 0 ↔ resp.statusCode ∈ M) ∧
    (evalResolved f env (some resp) = 1 ↔ resp.statusCode ∉ M) := by
  simp only [evalResolved]
  rw [if_neg hu, hc]
  simp only [evalResponse, hg, or_true, if_true]
  by_cases hm : resp.statusCode ∈ M
  · rw [if_pos hm]
    simp [hm]
  · rw [if_neg hm]
    simp [hm]

/-- Witness for C2 at codes 200 and status 200. -/
theorem claimC2witness :
    (evalResolved flagsCodesOnly envEmpty (some ⟨200, some ""⟩) = 0 ↔
      (200 : Int) ∈ ([200] : List Int).toFinset) ∧
    (evalResolved flagsCodesOnly envEmpty (some ⟨200, some ""⟩) = 1 ↔
      (200 : Int) ∉ ([200] : List Int).toFinset) :=
  claimC2 flagsCodesOnly envEmpty ⟨200, some ""⟩
    (([200] : List Int).toFinset) (by decide) rfl rfl

/- ## C3 -/

/-- Claim C3: when neither an accepted-codes set nor a body-substring is configured
after resolution and the transport call succeeds, the process exits 0 for every
received status code, 4xx and 5xx included. -/
theorem claimC3 (f : Flags) (env : String → String)
    (hu : (resolveFlags f env).url ≠ "")
    (hc : (resolveFlags f env).acceptedCodesStr = "")
    (hb : (resolveFlags f env).bodyContains = "") :
    ∀ (s : Int) (bodyRes : Option String), evalResolved f env (some ⟨s, bodyRes⟩) = 0 :=
  fun s bodyRes => evalResolved_no_criteria f env ⟨s, bodyRes⟩ hu hc hb

/-- Witness for C3 at status 500. -/
theorem claimC3witness :
    evalResolved flagsUrlOnly envEmpty (some ⟨500, some ""⟩) = 0 :=
  claimC3 flagsUrlOnly envEmpty (by decide) rfl rfl 500 (some "")

/- ## C9 -/

/-- Claim C9: with a non-empty body-substring configured but method HEAD, the
response body is never read (the exit code does not depend on the body read
result) and the body gate is treated as passed, so the exit code is decided
solely by the accepted-codes set when one is configured and is 0 otherwise. -/
theorem claimC9 (f : Flags) (env : String → String) (cs : Option (Finset Int))
    (hb : (resolveFlags f env).bodyContains ≠ "")
    (hm : (resolveFlags f env).httpMethod = "HEAD")
    (hu : (resolveFlags f env).url ≠ "")
    (hc : parseAcceptedCodes (resolveFlags f env).acceptedCodesStr = some cs) :
    ∀ (s : Int) (b1 b2 : Option String),
      evalResolved f env (some ⟨s, b1⟩) = evalResolved f env (some ⟨s, b2⟩) ∧
      evalResolved f env (some ⟨s, b1⟩) =
        (match cs with
         | some m => if s ∈ m then 0 else 1
         | none => 0) := by
  intro s b1 b2
  have hgate : ∀ b : Option String, bodyGate (resolveFlags f env) ⟨s, b⟩ = some true := by
    intro b
    unfold bodyGate
    rw [if_neg]
    intro hcon
    have h2 := hcon.2
    rw [hm] at h2
    exact absurd h2 (by decide)
  have hval : ∀ b : Option String,
      evalResolved f env (some ⟨s, b⟩) =
        (match cs with
         | some m => if s ∈ m then 0 else 1
         | none => 0) := by
    intro b
    simp only [evalResolved]
    rw [if_neg hu]
    simp only [hc, evalResponse, hgate b, or_true, if_true]
    cases cs with
    | none => rw [if_neg hb]
    | some m => rfl
  exact ⟨(hval b1).trans (hval b2).symm, hval b1⟩

/-- Witness for C9: HEAD with body check configured, body read result irrelevant. -/
theorem claimC9witness :
    evalResolved flagsHeadBoth envEmpty (some ⟨200, none⟩) =
      evalResolved flagsHeadBoth envEmpty (some ⟨200, some "nope"⟩) ∧
    evalResolved flagsHeadBoth envEmpty (some ⟨200, none⟩) =
      (if (200 : Int) ∈ ([200] : List Int).toFinset then 0 else 1) :=
  claimC9 flagsHeadBoth envEmpty (some (([200] : List Int).toFinset))
    (by decide) rfl (by decide) rfl 200 none (some "nope")

/- ## C10 -/

/-- Claim C10: if -B names an environment variable that is unset or empty, the
body-substring resolves to empty and the body gate is disabled, yet the mere
presence of the -B name still suppresses -C environment resolution; with -C set,
-B naming an unset variable and no -c literal, the process exits 0 for every
received status code. -/
theorem claimC10 (f : Flags) (env : String → String)
    (hB : f.bodyContainsEnvName ≠ "")
    (hunset : env f.bodyContainsEnvName = "")
    (_hC : f.acceptedCodesEnvName ≠ "")
    (hlit : f.acceptedCodesStr = "")
    (hu : (resolveFlags f env).url ≠ "") :
    ∀ (s : Int) (bodyRes : Option String), evalResolved f env (some ⟨s, bodyRes⟩) = 0 := by
  intro s bodyRes
  have hres : (resolveFlags f env).acceptedCodesStr = "" ∧
      (resolveFlags f env).bodyContains = "" := by
    unfold resolveFlags
    by_cases hU : f.urlEnvName = "" <;> simp [hU, hB, hunset, hlit]
  exact evalResolved_no_criteria f env ⟨s, bodyRes⟩ hu hres.1 hres.2

/-- Witness for C10: CV=200 in the environment, UNSET absent, status 503. -/
theorem claimC10witness :
    evalResolved flagsEnvIndirect env200 (some ⟨503, some ""⟩) = 0 :=
  claimC10 flagsEnvIndirect env200 (by decide) rfl (by decide) rfl (by decide) 503 (some "")


/- ## One-step equations for the flag-parsing loop -/

lemma plStep_u (arg v : String) (rest : List String) (f : Flags)
    (h : arg = "-u" ∨ arg = "--url") :
    parseLoop (arg :: v :: rest) f = parseLoop rest { f with url := v } := by
  rcases h with h | h <;> subst h <;> (rw [parseLoop.eq_def]; simp)

lemma plSingle_u (arg : String) (f : Flags) (h : arg = "-u" ∨ arg = "--url") :
    parseLoop [arg] f = none := by
  rcases h with h | h <;> subst h <;> (rw [parseLoop.eq_def]; simp)

lemma plStep_U (arg v : String) (rest : List String) (f : Flags)
    (h : arg = "-U" ∨ arg = "--url-env-name") :
    parseLoop (arg :: v :: rest) f = parseLoop rest { f with urlEnvName := v } := by
  rcases h with h | h <;> subst h <;> (rw [parseLoop.eq_def]; simp)

lemma plSingle_U (arg : String) (f : Flags) (h : arg = "-U" ∨ arg = "--url-env-name") :
    parseLoop [arg] f = none := by
  rcases h with h | h <;> subst h <;> (rw [parseLoop.eq_def]; simp)

lemma plStep_c (arg v : String) (rest : List String) (f : Flags)
    (h : arg = "-c" ∨ arg = "--accepted-codes") :
    parseLoop (arg :: v :: rest) f = parseLoop rest { f with acceptedCodesStr := v } := by
  rcases h with h | h <;> subst h <;> (rw [parseLoop.eq_def]; simp)

lemma plSingle_c (arg : String) (f : Flags) (h : arg = "-c" ∨ arg = "--accepted-codes") :
    parseLoop [arg] f = none := by
  rcases h with h | h <;> subst h <;> (rw [parseLoop.eq_def]; simp)

lemma plStep_C (arg v : String) (rest : List String) (f : Flags)
    (h : arg = "-C" ∨ arg = "--accepted-codes-env-name") :
    parseLoop (arg :: v :: rest) f = parseLoop rest { f with acceptedCodesEnvName := v } := by
  rcases h with h | h <;> subst h <;> (rw [parseLoop.eq_def]; simp)

lemma plSingle_C (arg : String) (f : Flags) (h : arg = "-C" ∨ arg = "--accepted-codes-env-name") :
    parseLoop [arg] f = none := by
  rcases h with h | h <;> subst h <;> (rw [parseLoop.eq_def]; simp)

lemma plStep_b (arg v : String) (rest : List String) (f : Flags)
    (h : arg = "-b" ∨ arg = "--body-contains") :
    parseLoop (arg :: v :: rest) f = parseLoop rest { f with bodyContains := v } := by
  rcases h with h | h <;> subst h <;> (rw [parseLoop.eq_def]; simp)

lemma plSingle_b (arg : String) (f : Flags) (h : arg = "-b" ∨ arg = "--body-contains") :
    parseLoop [arg] f = none := by
  rcases h with h | h <;> subst h <;> (rw [parseLoop.eq_def]; simp)

lemma plStep_B (arg v : String) (rest : List String) (f : Flags)
    (h : arg = "-B" ∨ arg = "--body-contains-env-name") :
    parseLoop (arg :: v :: rest) f = parseLoop rest { f with bodyContainsEnvName := v } := by
  rcases h with h | h <;> subst h <;> (rw [parseLoop.eq_def]; simp)

lemma plSingle_B (arg : String) (f : Flags) (h : arg = "-B" ∨ arg = "--body-contains-env-name") :
    parseLoop [arg] f = none := by
  rcases h with h | h <;> subst h <;> (rw [parseLoop.eq_def]; simp)

lemma plStep_v (arg : String) (rest : List String) (f : Flags)
    (h : arg = "-v" ∨ arg = "--verbose") :
    parseLoop (arg :: rest) f = parseLoop rest { f with verbose := true } := by
  rcases h with h | h <;> subst h <;> (rw [parseLoop.eq_def]; simp)

lemma plStep_k (arg : String) (rest : List String) (f : Flags)
    (h : arg = "-k" ∨ arg = "--insecure") :
    parseLoop (arg :: rest) f = parseLoop rest { f with insecureSkipVerify := true } := by
  rcases h with h | h <;> subst h <;> (rw [parseLoop.eq_def]; simp)

lemma plStep_h (arg : String) (rest : List String) (f : Flags)
    (h : arg = "-h" ∨ arg = "--help") :
    parseLoop (arg :: rest) f = parseLoop rest { f with help := true } := by
  rcases h with h | h <;> subst h <;> (rw [parseLoop.eq_def]; simp)

lemma plStep_t (arg v : String) (rest : List String) (f : Flags)
    (h : arg = "-t" ∨ arg = "--timeout") :
    parseLoop (arg :: v :: rest) f =
      (match goAtoi v.data with
       | some t => parseLoop rest { f with timeoutSeconds := t }
       | none => none) := by
  rcases h with h | h <;> subst h <;> (rw [parseLoop.eq_def]; simp)

lemma plSingle_t (arg : String) (f : Flags) (h : arg = "-t" ∨ arg = "--timeout") :
    parseLoop [arg] f = none := by
  rcases h with h | h <;> subst h <;> (rw [parseLoop.eq_def]; simp)

lemma plStep_m (arg v : String) (rest : List String) (f : Flags)
    (h : arg = "-m" ∨ arg = "--method") :
    parseLoop (arg :: v :: rest) f =
      (if goToUpper v = "GET" ∨ goToUpper v = "HEAD" then
        parseLoop rest { f with httpMethod := goToUpper v }
       else none) := by
  rcases h with h | h <;> subst h <;> (rw [parseLoop.eq_def]; simp)

lemma plSingle_m (arg : String) (f : Flags) (h : arg = "-m" ∨ arg = "--method") :
    parseLoop [arg] f = none := by
  rcases h with h | h <;> subst h <;> (rw [parseLoop.eq_def]; simp)

lemma plStep_unknown (arg : String) (rest : List String) (f : Flags)
    (h1 : ¬(arg = "-u" ∨ arg = "--url"))
    (h2 : ¬(arg = "-U" ∨ arg = "--url-env-name"))
    (h3 : ¬(arg = "-c" ∨ arg = "--accepted-codes"))
    (h4 : ¬(arg = "-C" ∨ arg = "--accepted-codes-env-name"))
    (h5 : ¬(arg = "-v" ∨ arg = "--verbose"))
    (h6 : ¬(arg = "-k" ∨ arg = "--insecure"))
    (h7 : ¬(arg = "-h" ∨ arg = "--help"))
    (h8 : ¬(arg = "-t" ∨ arg = "--timeout"))
    (h9 : ¬(arg = "-m" ∨ arg = "--method"))
    (h10 : ¬(arg = "-b" ∨ arg = "--body-contains"))
    (h11 : ¬(arg = "-B" ∨ arg = "--body-contains-env-name")) :
    parseLoop (arg :: rest) f = none := by
  rw [parseLoop.eq_def]
  simp [h1, h2, h3, h4, h5, h6, h7, h8, h9, h10, h11]

lemma parseLoop_clearVerbose (args : List String) (f1 : Flags) :
    ∀ f2 : Flags, clearVerbose f1 = clearVerbose f2 →
      Option.map clearVerbose (parseLoop args f1) =
        Option.map clearVerbose (parseLoop args f2) := by
  induction args, f1 using parseLoop.induct with
  | case1 f =>
      intro f2 h
      simp only [parseLoop, Option.map_some']
      exact congrArg some h
  | case2 arg f harg v rest2 ih =>
      intro f2 h
      rw [plStep_u arg v rest2 f harg, plStep_u arg v rest2 f2 harg]
      exact ih _ (congrArg (fun g => { g with url := v }) h)
  | case3 arg f harg =>
      intro f2 h
      rw [plSingle_u arg f harg, plSingle_u arg f2 harg]
  | case4 arg f _ harg v rest2 ih =>
      intro f2 h
      rw [plStep_U arg v rest2 f harg, plStep_U arg v rest2 f2 harg]
      exact ih _ (congrArg (fun g => { g with urlEnvName := v }) h)
  | case5 arg f _ harg =>
      intro f2 h
      rw [plSingle_U arg f harg, plSingle_U arg f2 harg]
  | case6 arg f _ _ harg v rest2 ih =>
      intro f2 h
      rw [plStep_c arg v rest2 f harg, plStep_c arg v rest2 f2 harg]
      exact ih _ (congrArg (fun g => { g with acceptedCodesStr := v }) h)
  | case7 arg f _ _ harg =>
      intro f2 h
      rw [plSingle_c arg f harg, plSingle_c arg f2 harg]
  | case8 arg f _ _ _ harg v rest2 ih =>
      intro f2 h
      rw [plStep_C arg v rest2 f harg, plStep_C arg v rest2 f2 harg]
      exact ih _ (congrArg (fun g => { g with acceptedCodesEnvName := v }) h)
  | case9 arg f _ _ _ harg =>
      intro f2 h
      rw [plSingle_C arg f harg, plSingle_C arg f2 harg]
  | case10 arg rest f _ _ _ _ harg ih =>
      intro f2 h
      rw [plStep_v arg rest f harg, plStep_v arg rest f2 harg]
      exact ih _ h
  | case11 arg rest f _ _ _ _ _ harg ih =>
      intro f2 h
      rw [plStep_k arg rest f harg, plStep_k arg rest f2 harg]
      exact ih _ (congrArg (fun g => { g with insecureSkipVerify := true }) h)
  | case12 arg rest f _ _ _ _ _ _ harg ih =>
      intro f2 h
      rw [plStep_h arg rest f harg, plStep_h arg rest f2 harg]
      exact ih _ (congrArg (fun g => { g with help := true }) h)
  | case13 arg f _ _ _ _ _ _ _ harg v rest2 t ht ih =>
      intro f2 h
      rw [plStep_t arg v rest2 f harg, plStep_t arg v rest2 f2 harg]
      simp only [ht]
      exact ih _ (congrArg (fun g => { g with timeoutSeconds := t }) h)
  | case14 arg f _ _ _ _ _ _ _ harg v rest2 ht =>
      intro f2 h
      rw [plStep_t arg v rest2 f harg, plStep_t arg v rest2 f2 harg]
      simp only [ht]
  | case15 arg f _ _ _ _ _ _ _ harg =>
      intro f2 h
      rw [plSingle_t arg f harg, plSingle_t arg f2 harg]
  | case16 arg f _ _ _ _ _ _ _ _ harg v rest2 hmeth ih =>
      intro f2 h
      rw [plStep_m arg v rest2 f harg, plStep_m arg v rest2 f2 harg]
      rw [if_pos hmeth, if_pos hmeth]
      exact ih _ (congrArg (fun g => { g with httpMethod := goToUpper v }) h)
  | case17 arg f _ _ _ _ _ _ _ _ harg v rest2 hmeth =>
      intro f2 h
      rw [plStep_m arg v rest2 f harg, plStep_m arg v rest2 f2 harg]
      rw [if_neg hmeth, if_neg hmeth]
  | case18 arg f _ _ _ _ _ _ _ _ harg =>
      intro f2 h
      rw [plSingle_m arg f harg, plSingle_m arg f2 harg]
  | case19 arg f _ _ _ _ _ _ _ _ _ harg v rest2 ih =>
      intro f2 h
      rw [plStep_b arg v rest2 f harg, plStep_b arg v rest2 f2 harg]
      exact ih _ (congrArg (fun g => { g with bodyContains := v }) h)
  | case20 arg f _ _ _ _ _ _ _ _ _ harg =>
      intro f2 h
      rw [plSingle_b arg f harg, plSingle_b arg f2 harg]
  | case21 arg f _ _ _ _ _ _ _ _ _ _ harg v rest2 ih =>
      intro f2 h
      rw [plStep_B arg v rest2 f harg, plStep_B arg v rest2 f2 harg]
      exact ih _ (congrArg (fun g => { g with bodyContainsEnvName := v }) h)
  | case22 arg f _ _ _ _ _ _ _ _ _ _ harg =>
      intro f2 h
      rw [plSingle_B arg f harg, plSingle_B arg f2 harg]
  | case23 arg rest f h1 h2 h3 h4 h5 h6 h7 h8 h9 h10 h11 =>
      intro f2 h
      rw [plStep_unknown arg rest f h1 h2 h3 h4 h5 h6 h7 h8 h9 h10 h11,
        plStep_unknown arg rest f2 h1 h2 h3 h4 h5 h6 h7 h8 h9 h10 h11]

lemma clearVerbose_url (f : Flags) : (clearVerbose f).url = f.url := rfl

lemma clearVerbose_acceptedCodesStr (f : Flags) :
    (clearVerbose f).acceptedCodesStr = f.acceptedCodesStr := rfl

lemma clearVerbose_bodyContains (f : Flags) :
    (clearVerbose f).bodyContains = f.bodyContains := rfl

lemma bodyGate_clearVerbose (f : Flags) (resp : HttpResponse) :
    bodyGate (clearVerbose f) resp = bodyGate f resp := rfl

lemma evalResponse_clearVerbose (f : Flags) (cs : Option (Finset Int))
    (resp : HttpResponse) :
    evalResponse (clearVerbose f) cs resp = evalResponse f cs resp := by
  unfold evalResponse
  rw [bodyGate_clearVerbose]
  simp only [clearVerbose_bodyContains]

lemma resolveFlags_clearVerbose (f : Flags) (env : String → String) :
    resolveFlags (clearVerbose f) env = clearVerbose (resolveFlags f env) := by
  cases f with
  | mk u uE aS aE vb ik hp ts hm bC bE =>
      unfold resolveFlags clearVerbose
      by_cases h1 : uE ≠ "" <;> by_cases h2 : aE ≠ "" <;>
        by_cases h3 : bE = "" <;> by_cases h4 : bC = "" <;>
        simp [h1, h2, h3, h4]

lemma evalResolved_clearVerbose (g : Flags) (env : String → String)
    (out : Option HttpResponse) :
    evalResolved (clearVerbose g) env out = evalResolved g env out := by
  unfold evalResolved
  rw [resolveFlags_clearVerbose]
  simp only [clearVerbose_url, clearVerbose_acceptedCodesStr,
    evalResponse_clearVerbose]

/- ## C8 (amended) -/

/-- Claim C8 (amended): for any two runs whose argument lists are non-empty and
differ only in a leading -v flag, the final verdict and exit code are identical:
verbose changes only what is printed, never the outcome.  (As stated the claim
fails for the empty argument list, see the counterexample.) -/
theorem claimC8amended (args : List String) (env : String → String)
    (out : Option HttpResponse) (hne : args ≠ []) :
    runMain ("-v" :: args) env out = runMain args env out := by
  have hstep : parseLoop ("-v" :: args) initFlags =
      parseLoop args { initFlags with verbose := true } :=
    plStep_v "-v" args initFlags (Or.inl rfl)
  have hcong := parseLoop_clearVerbose args { initFlags with verbose := true }
    initFlags rfl
  unfold runMain
  rw [if_neg (List.cons_ne_nil _ _), if_neg hne, hstep]
  cases hp1 : parseLoop args { initFlags with verbose := true } with
  | none =>
      rw [hp1] at hcong
      cases hp2 : parseLoop args initFlags with
      | none => rfl
      | some g2 =>
          rw [hp2] at hcong
          simp at hcong
  | some g1 =>
      rw [hp1] at hcong
      cases hp2 : parseLoop args initFlags with
      | none =>
          rw [hp2] at hcong
          simp at hcong
      | some g2 =>
          rw [hp2] at hcong
          simp only [Option.map_some'] at hcong
          have hcv : clearVerbose g1 = clearVerbose g2 := by
            injection hcong
          have hhelp0 := congrArg Flags.help hcv
          have hhelp : g1.help = g2.help := hhelp0
          have heval : evalResolved g1 env out = evalResolved g2 env out := by
            rw [← evalResolved_clearVerbose g1 env out, hcv,
              evalResolved_clearVerbose g2 env out]
          simp only [hhelp, heval]

/-- Witness for amended C8. -/
theorem claimC8amendedWitness :
    runMain ["-v", "-u", "X"] envEmpty (some ⟨200, some ""⟩) =
      runMain ["-u", "X"] envEmpty (some ⟨200, some ""⟩) :=
  claimC8amended ["-u", "X"] envEmpty (some ⟨200, some ""⟩) (by decide)

/-- Counterexample to C8 as stated: the runs with arguments [] and [-v] differ
only in the presence of -v, yet exit 0 (zero arguments print help) and 1
(missing URL) respectively. -/
theorem claimC8counter :
    runMain [] envEmpty (some ⟨200, some ""⟩) = 0 ∧
    runMain ["-v"] envEmpty (some ⟨200, some ""⟩) = 1 := by
  constructor <;> decide

/- ## C5 (amended) -/

/-- Claim C5 (amended): whenever the left-to-right parse of the argument list
completes successfully and recorded the help flag, the program exits 0,
regardless of every other flag, the environment, and the transport outcome
(no request is needed: the result ignores it).  (As stated the claim fails when
an earlier parse error aborts the run first, see the counterexample.) -/
theorem claimC5amended (args : List String) (env : String → String)
    (out : Option HttpResponse) (f : Flags)
    (hp : parseLoop args initFlags = some f) (hh : f.help = true) :
    runMain args env out = 0 := by
  unfold runMain
  by_cases ha : args = []
  · rw [if_pos ha]
  · rw [if_neg ha, hp]
    simp [hh]

/-- Witness for amended C5: -h together with other valid flags exits 0. -/
theorem claimC5amendedWitness :
    runMain ["-h", "-u", "X", "-c", "500"] envEmpty (some ⟨200, some ""⟩) = 0 :=
  claimC5amended ["-h", "-u", "X", "-c", "500"] envEmpty (some ⟨200, some ""⟩)
    { initFlags with help := true, url := "X", acceptedCodesStr := "500" }
    (by decide) rfl

/-- Counterexample to C5 as stated: the argument list [-t, abc, -h] contains -h
but exits 1, because the timeout parse error aborts the run before the help
check. -/
theorem claimC5counter :
    runMain ["-t", "abc", "-h"] envEmpty (some ⟨200, some ""⟩) = 1 := by decide

/- ## C6 (amended) -/

/-- Claim C6 (amended): the token following the timeout flag must parse as an
integer: a parse failure exits 1 during argument parsing, before any request;
any successfully parsed integer, including zero and negatives, is accepted as
the timeout.  (The positivity requirement of the claim as stated is not
enforced, see the counterexample.) -/
theorem claimC6amended (arg v : String) (rest : List String) (f : Flags) (t : Int)
    (harg : arg = "-t" ∨ arg = "--timeout") :
    (goAtoi v.data = none → parseLoop (arg :: v :: rest) f = none) ∧
    (goAtoi v.data = some t →
      parseLoop (arg :: v :: rest) f = parseLoop rest { f with timeoutSeconds := t }) := by
  constructor
  · intro hv
    rw [plStep_t arg v rest f harg, hv]
  · intro hv
    rw [plStep_t arg v rest f harg, hv]

/-- Witness for amended C6: -t abc fails, -t -5 is accepted. -/
theorem claimC6amendedWitness :
    parseLoop ["-t", "abc"] initFlags = none ∧
    parseLoop ["-t", "-5"] initFlags =
      parseLoop [] { initFlags with timeoutSeconds := -5 } :=
  ⟨(claimC6amended "-t" "abc" [] initFlags 0 (Or.inl rfl)).1 (by decide),
   (claimC6amended "-t" "-5" [] initFlags (-5) (Or.inl rfl)).2 (by decide)⟩

/-- Counterexample to C6 as stated: with -t -5 the program does not exit during
parsing; the request is issued and the run exits 0, although -5 is not a
positive integer. -/
theorem claimC6counter :
    runMain ["-u", "X", "-t", "-5", "-c", "200"] envEmpty (some ⟨200, some ""⟩) = 0 := by
  decide

/- ## C4 (amended) -/

lemma update_aE_url (f : Flags) :
    ({ f with acceptedCodesEnvName := "" } : Flags).url = f.url := rfl

lemma update_aE_acceptedCodesStr (f : Flags) :
    ({ f with acceptedCodesEnvName := "" } : Flags).acceptedCodesStr =
      f.acceptedCodesStr := rfl

lemma bodyGate_update_aE (f : Flags) (resp : HttpResponse) :
    bodyGate { f with acceptedCodesEnvName := "" } resp = bodyGate f resp := rfl

lemma evalResponse_update_aE (f : Flags) (cs : Option (Finset Int))
    (resp : HttpResponse) :
    evalResponse { f with acceptedCodesEnvName := "" } cs resp =
      evalResponse f cs resp := by
  unfold evalResponse
  rw [bodyGate_update_aE]

/-- Claim C4 (amended): the accepted-codes environment variable named by -C is
consulted only when the resolved -b value and the -B name are both empty, so a
body-substring source with a non-empty value suppresses environment-based code
resolution: erasing the -C name then cannot change the outcome, and a directly
supplied -c literal stays in effect.  (Flag presence alone does not suppress:
-b with an empty value does not, see the counterexample.) -/
theorem claimC4amended (f : Flags) (env : String → String) (out : Option HttpResponse)
    (h : f.bodyContains ≠ "" ∨ f.bodyContainsEnvName ≠ "") :
    evalResolved f env out = evalResolved { f with acceptedCodesEnvName := "" } env out := by
  have hres : resolveFlags { f with acceptedCodesEnvName := "" } env =
      { resolveFlags f env with acceptedCodesEnvName := "" } := by
    cases f with
    | mk u uE aS aE vb ik hp ts hm bC bE =>
        unfold resolveFlags
        by_cases h1 : uE ≠ "" <;> by_cases h3 : bE = "" <;>
          rcases h with h | h <;> simp_all
  unfold evalResolved
  rw [hres]
  simp only [update_aE_url, update_aE_acceptedCodesStr, evalResponse_update_aE]

/-- Witness for amended C4: with -b OK configured, the -C name CV is inert. -/
theorem claimC4amendedWitness :
    evalResolved flagsBodyPlusCodeEnv env200 (some ⟨200, some "OK fine"⟩) =
      evalResolved { flagsBodyPlusCodeEnv with acceptedCodesEnvName := "" } env200
        (some ⟨200, some "OK fine"⟩) :=
  claimC4amended flagsBodyPlusCodeEnv env200 (some ⟨200, some "OK fine"⟩)
    (Or.inl (by decide))

/-- Counterexample to C4 as stated: with -u X -C CV -b (empty value), -b was
supplied yet the environment value of CV decides the outcome: status 404 exits
1 when CV=200 but 0 when CV is unset. -/
theorem claimC4counter :
    runMain ["-u", "X", "-C", "CV", "-b", ""] env200 (some ⟨404, some ""⟩) = 1 ∧
    runMain ["-u", "X", "-C", "CV", "-b", ""] envEmpty (some ⟨404, some ""⟩) = 0 := by
  constructor <;> decide

/- ## C7 -/

lemma optMapList_eq_none_iff (f : α → Option β) (l : List α) :
    optMapList f l = none ↔ none ∈ l.map f := by
  induction l with
  | nil => simp [optMapList]
  | cons a as ih =>
      simp only [optMapList, List.map_cons, List.mem_cons]
      cases hfa : f a with
      | none => simp
      | some b =>
          cases hrec : optMapList f as with
          | none =>
              rw [hrec] at ih
              simp [ih.mp rfl]
          | some bs =>
              rw [hrec] at ih
              simp only [reduceCtorEq, false_or]
              constructor
              · intro hcon
                exact absurd hcon (by simp)
              · intro hmem
                exact absurd (ih.mpr hmem) (by simp)

lemma optMapList_eq_some (f : α → Option β) :
    ∀ (l : List α) (b : List β), optMapList f l = some b → l.map f = b.map some := by
  intro l
  induction l with
  | nil =>
      intro b h
      simp only [optMapList, Option.some.injEq] at h
      subst h
      simp
  | cons a as ih =>
      intro b h
      simp only [optMapList] at h
      cases hfa : f a with
      | none => rw [hfa] at h; exact absurd h (by simp)
      | some x =>
          rw [hfa] at h
          cases hrec : optMapList f as with
          | none => rw [hrec] at h; exact absurd h (by simp)
          | some xs =>
              rw [hrec] at h
              simp only [Option.some.injEq] at h
              subst h
              simp [hfa, ih xs hrec]

lemma perm_of_map_some_perm (b1 b2 : List β) (h : (b1.map some).Perm (b2.map some)) :
    b1.Perm b2 := by
  have h1 : ((b1.map some : List (Option β)) : Multiset (Option β)) = (b2.map some : List (Option β)) :=
    Multiset.coe_eq_coe.mpr h
  have h2 : Multiset.map some (b1 : Multiset β) = Multiset.map some (b2 : Multiset β) := by
    simpa [Multiset.map_coe] using h1
  have h3 := Multiset.map_injective (Option.some_injective β) h2
  exact Multiset.coe_eq_coe.mp h3

lemma optMapList_perm_eq [DecidableEq β] (f : α → Option β) (l1 l2 : List α)
    (hp : (l1.map f).Perm (l2.map f)) :
    (optMapList f l1).map (fun codes => codes.toFinset) =
      (optMapList f l2).map (fun codes => codes.toFinset) := by
  cases h1 : optMapList f l1 with
  | none =>
      have hmem : none ∈ l1.map f := (optMapList_eq_none_iff f l1).mp h1
      have hmem2 : none ∈ l2.map f := hp.mem_iff.mp hmem
      rw [(optMapList_eq_none_iff f l2).mpr hmem2]
  | some b1 =>
      cases h2 : optMapList f l2 with
      | none =>
          have hmem : none ∈ l2.map f := (optMapList_eq_none_iff f l2).mp h2
          have hmem1 : none ∈ l1.map f := hp.mem_iff.mpr hmem
          rw [optMapList_eq_some f l1 b1 h1] at hmem1
          exact absurd hmem1 (by simp)
      | some b2 =>
          have e1 := optMapList_eq_some f l1 b1 h1
          have e2 := optMapList_eq_some f l2 b2 h2
          rw [e1, e2] at hp
          have hbp := perm_of_map_some_perm b1 b2 hp
          simp only [Option.map_some']
          exact congrArg some (List.toFinset_eq_of_perm _ _ hbp)

/-- Claim C7: accepted-codes CSV parsing is a pure function to a set of
integers: it is order-independent (element-wise permuted inputs parse to the
same set, e.g. 200,404 and 404,200), trims whitespace around elements,
collapses duplicates silently, and fails (exit 1) when any element does not
parse as an integer. -/
theorem claimC7 :
    (∀ s1 s2 : String, s1 ≠ "" → s2 ≠ "" →
        ((splitOnChar ',' s1.data).map parseCodeElem).Perm
          ((splitOnChar ',' s2.data).map parseCodeElem) →
        parseAcceptedCodes s1 = parseAcceptedCodes s2) ∧
    parseAcceptedCodes "200,404" = parseAcceptedCodes "404,200" ∧
    parseAcceptedCodes " 200 , 404" = parseAcceptedCodes "200,404" ∧
    parseAcceptedCodes "200,404,200" = parseAcceptedCodes "200,404" ∧
    (∀ s : String, s ≠ "" → ∀ e ∈ splitOnChar ',' s.data,
        parseCodeElem e = none → parseAcceptedCodes s = none) := by
  have hmain : ∀ s1 s2 : String, s1 ≠ "" → s2 ≠ "" →
      ((splitOnChar ',' s1.data).map parseCodeElem).Perm
        ((splitOnChar ',' s2.data).map parseCodeElem) →
      parseAcceptedCodes s1 = parseAcceptedCodes s2 := by
    intro s1 s2 h1 h2 hp
    unfold parseAcceptedCodes
    rw [if_neg h1, if_neg h2]
    have hfin := optMapList_perm_eq parseCodeElem _ _ hp
    calc
      (optMapList parseCodeElem (splitOnChar ',' s1.data)).map
          (fun codes => some codes.toFinset)
        = ((optMapList parseCodeElem (splitOnChar ',' s1.data)).map
            (fun codes => codes.toFinset)).map some := by
          rw [Option.map_map]
          rfl
      _ = ((optMapList parseCodeElem (splitOnChar ',' s2.data)).map
            (fun codes => codes.toFinset)).map some := by rw [hfin]
      _ = (optMapList parseCodeElem (splitOnChar ',' s2.data)).map
            (fun codes => some codes.toFinset) := by
          rw [Option.map_map]
          rfl
  refine ⟨hmain, ?_, ?_, ?_, ?_⟩
  · exact hmain "200,404" "404,200" (by decide) (by decide) (by decide)
  · exact hmain " 200 , 404" "200,404" (by decide) (by decide) (by decide)
  · show some (some (([200, 404, 200] : List Int).toFinset)) =
      some (some (([200, 404] : List Int).toFinset))
    have : (([200, 404, 200] : List Int).toFinset) = (([200, 404] : List Int).toFinset) := by
      ext x
      simp only [List.mem_toFinset, List.mem_cons, List.not_mem_nil, or_false]
      tauto
    rw [this]
  · intro s hs e he hnone
    unfold parseAcceptedCodes
    rw [if_neg hs]
    have hnone2 : optMapList parseCodeElem (splitOnChar ',' s.data) = none :=
      (optMapList_eq_none_iff _ _).mpr (List.mem_map.mpr ⟨e, he, hnone⟩)
    rw [hnone2]
    rfl

/-- Witness for C7: permutation instance 1,2 versus 2,1 and a failing element x. -/
theorem claimC7witness :
    parseAcceptedCodes "1,2" = parseAcceptedCodes "2,1" ∧
    parseAcceptedCodes "7,x" = none :=
  ⟨claimC7.1 "1,2" "2,1" (by decide) (by decide) (by decide),
   claimC7.2.2.2.2 "7,x" (by decide) [Char.ofNat 120] (by decide) (by decide)⟩
